import Mathlib

/-!
Verification of the workflow orchestrator, quality-validation loop and
agent-to-agent protocol of the youtube-agent-system repository, as a shallow
embedding in Lean 4.

The embedding follows the Python source:
  * `src/operations/workflow_orchestrator.py` — `WorkflowStatus`,
    `WorkflowStep`, `WorkflowOrchestrator` (the wave-based drive loop of
    `execute_workflow`, `pause_workflow`, `resume_workflow`,
    `cancel_workflow`, `get_workflow_status`);
  * `src/agents/loop_agents.py` — `QualityValidatorAgent` and its
    iterative quality loop;
  * `src/protocols/a2a_protocol.py` — the timeout path of
    `_send_and_await_response` and `_process_message`.

Dispatch of a step to an agent over the A2A bus is abstracted by a boolean
outcome function (success/failure of the dispatch) and an opaque result
payload; the drive loop itself is translated statement by statement.  The
unbounded `while` loops of the Python code are run on explicit fuel: a
`none` result of the driver means the loop did not finish within the given
number of scheduling waves (so `∀ fuel, ⋯ = none` states non-termination).
-/

namespace YTAgent

/-- The `WorkflowStatus` enum of `src/operations/workflow_orchestrator.py`. -/
inductive WorkflowStatus where
  | pending
  | running
  | paused
  | completed
  | failed
  | cancelled
deriving DecidableEq, Repr, BEq

/-- A `WorkflowStep` (`workflow_orchestrator.py`, lines 15–28): identifier,
dependency list, status, opaque result payload (present only after a
successful dispatch) and error string (set by a failed dispatch).  The
`agent_name`/`task` fields and the two timestamps play no role in any claim
and are dropped; `result` is opaque in the source (`Dict[str, Any]`) and is
modelled by a `Nat` payload. -/
structure WorkflowStep where
  step_id : String
  dependencies : List String
  status : WorkflowStatus := .pending
  result : Option Nat := none
  error : Option String := none
deriving DecidableEq, Repr, BEq

/-- The mutable state of one `execute_workflow` run: the step objects, the
`executed_steps` set (a list, appended in completion order) and the
workflow-level status field `workflow["status"]`. -/
structure WorkflowState where
  steps : List WorkflowStep
  executed : List String
  wstatus : WorkflowStatus
deriving DecidableEq, Repr, BEq

/-- The readiness test of the drive loop (lines 134–138): a step is ready
when it has not been executed yet and every dependency is in
`executed_steps`.  A step whose dispatch failed is *not* in
`executed_steps`, so it stays ready. -/
def isReady (executed : List String) (s : WorkflowStep) : Bool :=
  !executed.contains s.step_id && s.dependencies.all (fun d => executed.contains d)

/-- `ready_steps` of one wave (lines 134–138). -/
def readySteps (st : WorkflowState) : List WorkflowStep :=
  st.steps.filter (isReady st.executed)

/-- Result processing for one dispatched step (lines 159–168 together with
`_execute_workflow_step`): on success the status becomes `completed` and the
result is stored; on failure the status becomes `failed` and the error
string is stored.  Neither branch clears the other field. -/
def applyDispatch (outcome : String → Bool) (res : String → Nat) (s : WorkflowStep) :
    WorkflowStep :=
  if outcome s.step_id then
    { s with status := .completed, result := some (res s.step_id) }
  else
    { s with status := .failed, error := some "Agent execution failed" }

/-- One scheduling wave (lines 149–170): every ready step is dispatched in
parallel; successful steps are added to `executed_steps` (failed ones are
not), and each ready step's record is updated by `applyDispatch`.
`outcome wave id` is the success of dispatching step `id` in this wave. -/
def processWave (outcome : Nat → String → Bool) (res : String → Nat) (wave : Nat)
    (st : WorkflowState) : WorkflowState :=
  let newExec := ((readySteps st).filter (fun s => outcome wave s.step_id)).map
    (fun s => s.step_id)
  { st with
    steps := st.steps.map
      (fun s => if isReady st.executed s then applyDispatch (outcome wave) res s else s),
    executed := st.executed ++ newExec }

/-- The `while len(executed_steps) < total_steps` drive loop (lines
132–170), run on fuel counting scheduling waves.  `some st` is normal loop
exit (all steps executed, or the empty-ready-set `break` of lines 140–147);
`none` means the loop was still running after `fuel` waves. -/
def runWaves (outcome : Nat → String → Bool) (res : String → Nat) :
    Nat → Nat → WorkflowState → Option WorkflowState
  | 0, _, st =>
    if st.executed.length < st.steps.length then none else some st
  | Nat.succ fuel, wave, st =>
    if st.executed.length < st.steps.length then
      if readySteps st = [] then some st
      else runWaves outcome res fuel (wave + 1) (processWave outcome res wave st)
    else some st

/-- `failed_steps` of the final check (lines 173–176). -/
def failedStepIds (st : WorkflowState) : List String :=
  (st.steps.filter (fun s => s.status == .failed)).map (fun s => s.step_id)

/-- The `pending_steps` diagnostic of the no-ready-steps branch (lines
142–145). -/
def pendingStepIds (st : WorkflowState) : List String :=
  (st.steps.filter (fun s => !st.executed.contains s.step_id)).map (fun s => s.step_id)

/-- The final status determination (lines 172–184): the workflow is marked
`failed` when some step's status is `failed`, else `completed`. -/
def finalizeWorkflow (st : WorkflowState) : WorkflowState :=
  if failedStepIds st = [] then { st with wstatus := .completed }
  else { st with wstatus := .failed }

/-- The fresh state `execute_workflow` starts from (line 123 sets the
workflow status to `running`; `executed_steps` starts empty). -/
def initialState (steps : List WorkflowStep) : WorkflowState :=
  { steps := steps, executed := [], wstatus := .running }

/-- A whole `execute_workflow` run on a known workflow's steps: the drive
loop followed by the final status determination.  `none` means the drive
loop was still running after `fuel` waves. -/
def executeWorkflowRun (outcome : Nat → String → Bool) (res : String → Nat)
    (fuel : Nat) (steps : List WorkflowStep) : Option WorkflowState :=
  (runWaves outcome res fuel 0 (initialState steps)).map finalizeWorkflow

/-- A registry entry of `active_workflows`: the status field and the step
objects of one workflow. -/
structure Workflow where
  wstatus : WorkflowStatus
  steps : List WorkflowStep
deriving DecidableEq, Repr, BEq

/-- The orchestrator's `active_workflows` registry (a dict keyed by
workflow id, modelled as an association list with unique keys). -/
structure Orchestrator where
  active_workflows : List (String × Workflow)
deriving DecidableEq, Repr, BEq

/-- `workflow_id in self.active_workflows` / registry lookup. -/
def findWorkflow (o : Orchestrator) (id : String) : Option Workflow :=
  (o.active_workflows.find? (fun p => p.1 == id)).map (fun p => p.2)

/-- In-place mutation of one workflow's status field. -/
def setWorkflowStatus (o : Orchestrator) (id : String) (s : WorkflowStatus) :
    Orchestrator :=
  ⟨o.active_workflows.map
    (fun p => if p.1 == id then (p.1, { p.2 with wstatus := s }) else p)⟩

/-- `pause_workflow` (lines 222–234): false for an unknown id; flips
`running` to `paused` and returns true; false from every other status. -/
def pause_workflow (o : Orchestrator) (id : String) : Bool × Orchestrator :=
  match findWorkflow o id with
  | none => (false, o)
  | some wf =>
    if wf.wstatus = .running then (true, setWorkflowStatus o id .paused)
    else (false, o)

/-- `resume_workflow` (lines 236–251): false for an unknown id; flips
`paused` to `running` and returns true; false from every other status.
(The `asyncio.create_task(self.execute_workflow(...))` it spawns on success
is a separate drive-loop run and does not affect the returned pair.) -/
def resume_workflow (o : Orchestrator) (id : String) : Bool × Orchestrator :=
  match findWorkflow o id with
  | none => (false, o)
  | some wf =>
    if wf.wstatus = .paused then (true, setWorkflowStatus o id .running)
    else (false, o)

/-- `cancel_workflow` (lines 253–262): false for an unknown id; for a known
workflow it sets the status to `cancelled` and returns true with *no* check
of the current status. -/
def cancel_workflow (o : Orchestrator) (id : String) : Bool × Orchestrator :=
  match findWorkflow o id with
  | none => (false, o)
  | some _ => (true, setWorkflowStatus o id .cancelled)

/-- `get_workflow_status` (lines 264–298), reduced to the fields the claims
mention: the error dictionary for an unknown id, else the workflow status
with the completed-or-failed step count and the total step count. -/
def get_workflow_status (o : Orchestrator) (id : String) :
    Except String (WorkflowStatus × Nat × Nat) :=
  match findWorkflow o id with
  | none => .error "Workflow not found"
  | some wf =>
    .ok (wf.wstatus,
      (wf.steps.filter (fun s => s.status == .completed || s.status == .failed)).length,
      wf.steps.length)

/-- `execute_workflow`'s entry check (lines 117–123): a `ValueError` for an
unknown id, else the drive-loop run on that workflow's steps, writing the
resulting step records and final status back into the registry. -/
def execute_workflow (outcome : Nat → String → Bool) (res : String → Nat) (fuel : Nat)
    (o : Orchestrator) (id : String) :
    Except String (Option WorkflowState × Orchestrator) :=
  match findWorkflow o id with
  | none => .error ("Workflow not found: " ++ id)
  | some wf =>
    match executeWorkflowRun outcome res fuel wf.steps with
    | none => .ok (none, setWorkflowStatus o id .running)
    | some st =>
      .ok (some st,
        ⟨o.active_workflows.map
          (fun p => if p.1 == id then (p.1, ⟨st.wstatus, st.steps⟩) else p)⟩)

/-- The drive loop of `execute_workflow` as it interleaves with concurrent
`pause_workflow`/`cancel_workflow` calls: before each wave the environment
may overwrite the workflow status field (a pause or cancel taking effect at
the `await` boundary between waves).  The loop body is exactly `runWaves`'s
— the source loop (lines 127–171) never reads `workflow["status"]`, so the
overwritten status cannot influence whether a wave is dispatched. -/
def runWavesEnv (override : Nat → Option WorkflowStatus)
    (outcome : Nat → String → Bool) (res : String → Nat) :
    Nat → Nat → WorkflowState → Option WorkflowState
  | 0, wave, st =>
    let st0 := match override wave with
      | some s => { st with wstatus := s }
      | none => st
    if st0.executed.length < st0.steps.length then none else some st0
  | Nat.succ fuel, wave, st =>
    let st0 := match override wave with
      | some s => { st with wstatus := s }
      | none => st
    if st0.executed.length < st0.steps.length then
      if readySteps st0 = [] then some st0
      else runWavesEnv override outcome res fuel (wave + 1) (processWave outcome res wave st0)
    else some st0

/-! ### Concrete workflows used in the claim theorems -/

/-- Two steps depending on each other: a dependency cycle that escaped
construction-time validation. -/
def cycleSteps : List WorkflowStep :=
  [⟨"a", ["b"], .pending, none, none⟩, ⟨"b", ["a"], .pending, none, none⟩]

/-- One dependency-free step. -/
def soloStep : List WorkflowStep := [⟨"a", [], .pending, none, none⟩]

/-- Step `a` depends on step `b`; `b` is dependency-free. -/
def chainSteps : List WorkflowStep :=
  [⟨"b", [], .pending, none, none⟩, ⟨"a", ["b"], .pending, none, none⟩]

/-- A registry holding one workflow `"w"` that already terminated in
`completed`. -/
def completedOrch : Orchestrator := ⟨[("w", ⟨.completed, []⟩)]⟩

/-- The state the solo workflow reaches after its first wave when every
dispatch fails: the step is `failed`, and — since failed steps are not
added to `executed_steps` — it is still ready. -/
def soloFailedState : WorkflowState :=
  { steps := [⟨"a", [], .failed, none, some "Agent execution failed"⟩],
    executed := [], wstatus := .running }

/-- The state `chainSteps` reaches after its first wave when dispatching
`"b"` fails: `b` is `failed` but still ready (so it is retried forever),
while `a` stays `pending` because its dependency `b` never enters
`executed_steps`. -/
def chainStuckState : WorkflowState :=
  { steps := [⟨"b", [], .failed, none, some "Agent execution failed"⟩,
              ⟨"a", ["b"], .pending, none, none⟩],
    executed := [], wstatus := .running }

/-- A state that one wave maps to itself, while some step is unexecuted and
the ready set is nonempty, keeps the drive loop running forever: no fuel
bound makes `runWaves` return. -/
theorem runWaves_none_of_fixpoint (outcome : Nat → String → Bool) (res : String → Nat)
    (st : WorkflowState) (hlen : st.executed.length < st.steps.length)
    (hready : readySteps st ≠ [])
    (hfix : ∀ wave, processWave outcome res wave st = st) :
    ∀ fuel wave, runWaves outcome res fuel wave st = none := by
  intro fuel
  induction fuel with
  | zero =>
    intro wave
    simp only [runWaves, if_pos hlen]
  | succ f ih =>
    intro wave
    simp only [runWaves, if_pos hlen, if_neg hready, hfix, ih]

/-- The per-step `result`/`error` discipline the data model documents,
weakened to what the code maintains: the result is present exactly on
`completed` steps; a `failed` step always carries an error; and an error is
only ever carried by a step that is `failed` now or completed after an
earlier failed dispatch (the success branch never clears `error`). -/
def StepInv (s : WorkflowStep) : Prop :=
  (s.result.isSome ↔ s.status = .completed) ∧
  (s.status = .failed → s.error.isSome) ∧
  (s.error.isSome → s.status = .failed ∨ s.status = .completed)

/-- The state invariant of the drive loop: every step satisfies `StepInv`,
and every `completed` step is in `executed_steps`. -/
def WaveInv (st : WorkflowState) : Prop :=
  ∀ s ∈ st.steps, StepInv s ∧ (s.status = .completed → s.step_id ∈ st.executed)

theorem waveInv_processWave (outcome : Nat → String → Bool) (res : String → Nat)
    (wave : Nat) (st : WorkflowState) (hinv : WaveInv st) :
    WaveInv (processWave outcome res wave st) := by
  intro s hs
  simp only [processWave, List.mem_map] at hs
  obtain ⟨t, ht, rfl⟩ := hs
  obtain ⟨⟨hres, herr1, herr2⟩, hcomp⟩ := hinv t ht
  by_cases hr : isReady st.executed t
  · have hnotexec : ¬ t.step_id ∈ st.executed := by
      have h2 := hr
      simp [isReady] at h2
      exact h2.1
    have hnotcomp : t.status ≠ .completed := fun h => hnotexec (hcomp h)
    have hresnone : t.result = none := by
      cases hq : t.result with
      | none => rfl
      | some v => exact absurd (hres.mp (by simp [hq])) hnotcomp
    simp only [if_pos hr, applyDispatch]
    by_cases ho : outcome wave t.step_id
    · simp only [if_pos ho]
      refine ⟨⟨by simp, by simp, fun _ => Or.inr rfl⟩, fun _ => ?_⟩
      simp only [processWave, List.mem_append]
      right
      simp only [List.mem_map, List.mem_filter]
      exact ⟨t, ⟨by simpa [readySteps, List.mem_filter] using ⟨ht, hr⟩, by simpa using ho⟩, rfl⟩
    · simp only [if_neg ho]
      exact ⟨⟨by simp [hresnone], by simp, fun _ => Or.inl rfl⟩, by simp⟩
  · simp only [if_neg hr]
    refine ⟨⟨hres, herr1, herr2⟩, fun h => ?_⟩
    simp only [processWave, List.mem_append]
    exact Or.inl (hcomp h)

/-! ### Theorems -/

/-- C9 counterexample: a one-step workflow whose dispatch fails in wave 0
and succeeds in the retry of wave 1 ends with the step `completed`, carrying
a result *and* the error recorded by the failed first dispatch — a
`completed` step with a non-null error, contradicting "error present iff
Failed". -/
theorem C9_completed_step_keeps_error :
    (executeWorkflowRun (fun wave _ => wave != 0) (fun _ => 0) 3 soloStep).map
        (fun st => st.steps.map (fun s => (s.status, s.result, s.error))) =
      some [(.completed, some 0, some "Agent execution failed")] := by
  rfl

/-- C9 (amended): at every wave boundary of the drive loop, a step's result
is present iff its status is `completed` and a `failed` status always comes
with an error; but an error is present iff the step failed on *some*
dispatch — since failed steps are retried and the success branch never
clears `error`, a step that completed after an earlier failed dispatch
keeps its error, so "error present" implies `failed` or `completed`, not
`failed` alone. -/
theorem C9_result_error_invariant (outcome : Nat → String → Bool) (res : String → Nat)
    (fuel wave : Nat) (st st' : WorkflowState) (hinv : WaveInv st)
    (hrun : runWaves outcome res fuel wave st = some st') :
    WaveInv st' := by
  induction fuel generalizing wave st with
  | zero =>
    simp only [runWaves] at hrun
    split at hrun
    · exact absurd hrun (by simp)
    · cases hrun; exact hinv
  | succ f ih =>
    simp only [runWaves] at hrun
    split at hrun
    · split at hrun
      · cases hrun; exact hinv
      · exact ih (wave + 1) (processWave outcome res wave st)
          (waveInv_processWave outcome res wave st hinv) hrun
    · cases hrun; exact hinv

/-- C9 witness: the invariant theorem applied to a successful one-wave run
of the solo workflow. -/
theorem C9_result_error_invariant_witness :
    WaveInv { steps := [⟨"a", [], .completed, some 0, none⟩],
              executed := ["a"], wstatus := .running } :=
  C9_result_error_invariant (fun _ _ => true) (fun _ => 0) 2 0
    (initialState soloStep) _
    (by simp [WaveInv, StepInv, initialState, soloStep]) (by rfl)

/-- C1: the drive loop does not terminate for every valid acyclic workflow:
on the one-step, dependency-free workflow (longest dependency chain of
length 1) whose single dispatch always fails, `execute_workflow` never
finishes — for every number of scheduling waves the loop is still running,
because the failed step is never added to `executed_steps` and so is
re-dispatched in every wave. -/
theorem C1_failing_dispatch_loops_forever :
    ∀ fuel, executeWorkflowRun (fun _ _ => false) (fun _ => 0) fuel soloStep = none := by
  have hnone : ∀ fuel wave,
      runWaves (fun _ _ => false) (fun _ => 0) fuel wave soloFailedState = none :=
    runWaves_none_of_fixpoint (fun _ _ => false) (fun _ => 0) soloFailedState
      (by decide) (by decide) (fun _ => rfl)
  intro fuel
  cases fuel with
  | zero => rfl
  | succ f =>
    show (runWaves (fun _ _ => false) (fun _ => 0) (f + 1) 0
      (initialState soloStep)).map finalizeWorkflow = none
    have hstep : processWave (fun _ _ => false) (fun _ => 0) 0
        (initialState soloStep) = soloFailedState := rfl
    simp only [runWaves, hstep, hnone, Option.map_none']
    rfl

/-- C3: when step `a` depends on step `b` and dispatching `b` fails, the
claimed outcome (workflow ends `failed`, `b` among the failed steps, `a`
pending) is never reported because `execute_workflow` never ends: from the
first wave on, the state is constantly `chainStuckState` — in which `b` is
`failed` and `a` is still `pending`, never `running` or `completed` — and
every wave re-dispatches `b` and fails again. -/
theorem C3_failed_dependency_run_never_ends :
    (∀ fuel, executeWorkflowRun (fun _ id => id == "a") (fun _ => 0) fuel chainSteps = none) ∧
    processWave (fun _ id => id == "a") (fun _ => 0) 0 (initialState chainSteps) =
      chainStuckState ∧
    (∀ wave, processWave (fun _ id => id == "a") (fun _ => 0) wave chainStuckState =
      chainStuckState) ∧
    chainStuckState.steps.map (fun s => (s.step_id, s.status)) =
      [("b", .failed), ("a", .pending)] := by
  have hnone : ∀ fuel wave,
      runWaves (fun _ id => id == "a") (fun _ => 0) fuel wave chainStuckState = none :=
    runWaves_none_of_fixpoint (fun _ id => id == "a") (fun _ => 0) chainStuckState
      (by decide) (by decide) (fun _ => rfl)
  refine ⟨?_, rfl, fun _ => rfl, rfl⟩
  intro fuel
  cases fuel with
  | zero => rfl
  | succ f =>
    show (runWaves (fun _ id => id == "a") (fun _ => 0) (f + 1) 0
      (initialState chainSteps)).map finalizeWorkflow = none
    have hstep : processWave (fun _ id => id == "a") (fun _ => 0) 0
        (initialState chainSteps) = chainStuckState := rfl
    simp only [runWaves, hstep, hnone, Option.map_none']
    rfl

/-- C2: on the concrete two-step dependency cycle the drive loop does take
the no-ready-steps branch and stops (the `pending_steps` diagnostic names
both steps), but the final status determination then marks the workflow
`completed` — not `failed` as the claim states — because no step ever
reached a `failed` status. -/
theorem C2_stuck_workflow_marked_completed :
    executeWorkflowRun (fun _ _ => true) (fun _ => 0) 5 cycleSteps =
      some { steps := cycleSteps, executed := [], wstatus := .completed } ∧
    pendingStepIds (initialState cycleSteps) = ["a", "b"] := by
  constructor <;> rfl

/-- C8: with the workflow status overwritten to `cancelled` before the very
first wave (a `cancel_workflow` call taking effect at the wave boundary),
the drive loop still dispatches that wave: the single step is executed to
`completed` even though the workflow status was `cancelled` the whole time,
because the loop never reads the status field. -/
theorem C8_wave_dispatched_despite_cancelled :
    runWavesEnv (fun _ => some .cancelled) (fun _ _ => true) (fun _ => 0) 2 0
      (initialState soloStep) =
      some { steps := [⟨"a", [], .completed, some 0, none⟩],
             executed := ["a"], wstatus := .cancelled } := by
  rfl

/-- C7 counterexample: cancelling the workflow `"w"` of `completedOrch`,
which is already in the terminal status `completed`, returns `true` and
re-labels the workflow `cancelled` — the claim states the call returns
`false` and leaves the terminal status unchanged. -/
theorem C7_cancel_resurrects_completed :
    cancel_workflow completedOrch "w" =
      (true, ⟨[("w", ⟨.cancelled, []⟩)]⟩) := by
  rfl

/-- C7 (amended): `pause_workflow` returns `false` and leaves the
orchestrator unchanged from every status other than `running`, and
`resume_workflow` does so from every status other than `paused` (in
particular `resume` on a `running` workflow returns `false`); but
`cancel_workflow` on a known workflow returns `true` and sets the status to
`cancelled` from *any* current status, terminal ones included. -/
theorem C7_pause_resume_guarded_cancel_unguarded (o : Orchestrator) (id : String)
    (wf : Workflow) (h : findWorkflow o id = some wf) :
    (wf.wstatus ≠ .running → pause_workflow o id = (false, o)) ∧
    (wf.wstatus ≠ .paused → resume_workflow o id = (false, o)) ∧
    cancel_workflow o id = (true, setWorkflowStatus o id .cancelled) := by
  refine ⟨fun hs => ?_, fun hs => ?_, ?_⟩
  · simp [pause_workflow, h, hs]
  · simp [resume_workflow, h, hs]
  · simp [cancel_workflow, h]

/-- C7 witness: the amended theorem applied to the registry holding the
`completed` workflow `"w"`. -/
theorem C7_pause_resume_guarded_cancel_unguarded_witness :
    (WorkflowStatus.completed ≠ .running → pause_workflow completedOrch "w" = (false, completedOrch)) ∧
    (WorkflowStatus.completed ≠ .paused → resume_workflow completedOrch "w" = (false, completedOrch)) ∧
    cancel_workflow completedOrch "w" = (true, setWorkflowStatus completedOrch "w" .cancelled) :=
  C7_pause_resume_guarded_cancel_unguarded completedOrch "w" ⟨.completed, []⟩ (by rfl)

/-- C10: for a workflow id absent from the `active_workflows` registry,
`execute_workflow` raises (`ValueError`, modelled as the `Except.error`
value), `pause_workflow`, `resume_workflow` and `cancel_workflow` each
return `false`, and `get_workflow_status` returns the error dictionary
rather than raising; every one of these calls leaves the registry exactly
as it was. -/
theorem C10_unknown_workflow_id_safe (o : Orchestrator) (id : String)
    (outcome : Nat → String → Bool) (res : String → Nat) (fuel : Nat)
    (h : findWorkflow o id = none) :
    execute_workflow outcome res fuel o id = .error ("Workflow not found: " ++ id) ∧
    pause_workflow o id = (false, o) ∧
    resume_workflow o id = (false, o) ∧
    cancel_workflow o id = (false, o) ∧
    get_workflow_status o id = .error "Workflow not found" := by
  refine ⟨?_, ?_, ?_, ?_, ?_⟩ <;>
    simp [execute_workflow, pause_workflow, resume_workflow, cancel_workflow,
      get_workflow_status, h]

/-- C10 witness: the unknown-id theorem applied to the empty registry. -/
theorem C10_unknown_workflow_id_safe_witness :
    execute_workflow (fun _ _ => true) (fun _ => 0) 3 ⟨[]⟩ "w" =
      .error ("Workflow not found: " ++ "w") ∧
    pause_workflow ⟨[]⟩ "w" = (false, ⟨[]⟩) ∧
    resume_workflow ⟨[]⟩ "w" = (false, ⟨[]⟩) ∧
    cancel_workflow ⟨[]⟩ "w" = (false, ⟨[]⟩) ∧
    get_workflow_status ⟨[]⟩ "w" = .error "Workflow not found" :=
  C10_unknown_workflow_id_safe ⟨[]⟩ "w" (fun _ _ => true) (fun _ => 0) 3 (by rfl)

/-! ### QualityValidatorAgent (src/agents/loop_agents.py) -/

/-- The `results` dictionary of `QualityValidatorAgent.execute` (lines
22–27).  Scores are exact rationals; improvement descriptors are opaque
strings. -/
structure QVResults where
  final_quality_score : ℚ
  iterations_performed : Nat
  improvements_made : List String
  meets_standards : Bool
deriving DecidableEq, Repr

/-- The fresh `results` dictionary built at the top of every `execute`
call. -/
def initResults : QVResults :=
  { final_quality_score := 0, iterations_performed := 0,
    improvements_made := [], meets_standards := false }

/-- The instance fields of `QualityValidatorAgent.__init__` (lines 9–13):
the threshold, the iteration budget and the `iteration_count` counter —
the counter is *instance* state, initialised to 0 at construction and never
reset by `execute`. -/
structure QVAgent where
  quality_threshold : ℚ
  max_iterations : Nat
  iteration_count : Nat
deriving DecidableEq, Repr

/-- A freshly constructed `QualityValidatorAgent(threshold, maxIter)`. -/
def newQualityValidator (threshold : ℚ) (maxIter : Nat) : QVAgent :=
  { quality_threshold := threshold, max_iterations := maxIter, iteration_count := 0 }

/-- The `while` loop of `QualityValidatorAgent.execute` (lines 29–61).
`_assess_quality` of the current assets is abstracted by `assess`, giving
the overall score of the `call`-th assessment of this invocation, and
`improv` gives the improvement descriptors generated after an assessment
below the threshold.  The loop guard is the source's
`iteration_count < max_iterations and not meets_standards`; on
`score >= threshold` the loop sets `meets_standards` and breaks before
generating improvements; the source's trailing
`if iteration_count >= max_iterations: break` re-states the guard and is
subsumed by re-checking it.  Fuel bounds the loop exactly: every iteration
increments `iteration_count` and the guard needs it below
`max_iterations`, so `max_iterations` iterations always suffice. -/
def qvLoop (threshold : ℚ) (maxIter : Nat) (assess : Nat → ℚ)
    (improv : Nat → List String) : Nat → Nat → Nat → QVResults → Nat × QVResults
  | 0, _, count, results => (count, results)
  | Nat.succ fuel, call, count, results =>
    if count < maxIter ∧ results.meets_standards = false then
      let count1 := count + 1
      let score := assess call
      let r1 := { results with final_quality_score := score,
                               iterations_performed := count1 }
      if threshold ≤ score then
        (count1, { r1 with meets_standards := true })
      else
        qvLoop threshold maxIter assess improv fuel (call + 1) count1
          { r1 with improvements_made := r1.improvements_made ++ improv call }
    else (count, results)

/-- One invocation of `QualityValidatorAgent.execute` (lines 15–63): runs
the loop from the agent's current `iteration_count`, returns the `results`
dictionary and the agent as the invocation leaves it (with the incremented
instance counter). -/
def QVAgent.execute (a : QVAgent) (assess : Nat → ℚ) (improv : Nat → List String) :
    QVResults × QVAgent :=
  let out := qvLoop a.quality_threshold a.max_iterations assess improv
    a.max_iterations 0 a.iteration_count initResults
  (out.2, { a with iteration_count := out.1 })

/-- The assessment scores 0.5, 0.6, 0.9 on successive calls. -/
def risingScores : Nat → ℚ :=
  fun k => if k = 0 then 5/10 else if k = 1 then 6/10 else 9/10

/-- C4: the two quality-loop scenarios on a freshly constructed validator
with threshold 0.8 and budget 5.  With assessments 0.5, 0.6, 0.9 the loop
performs exactly 3 iterations, meets the standards and reports final score
0.9; with every assessment 0.3 it performs exactly 5 iterations, does not
meet the standards and reports the last computed score 0.3. -/
theorem C4_quality_loop_scenarios :
    (let r := (QVAgent.execute (newQualityValidator (8/10) 5) risingScores
      (fun _ => ["improvement"])).1
     r.iterations_performed = 3 ∧ r.meets_standards = true ∧
       r.final_quality_score = 9/10) ∧
    (let r := (QVAgent.execute (newQualityValidator (8/10) 5) (fun _ => 3/10)
      (fun _ => ["improvement"])).1
     r.iterations_performed = 5 ∧ r.meets_standards = false ∧
       r.final_quality_score = 3/10) := by
  refine ⟨?_, ?_⟩ <;>
    norm_num [QVAgent.execute, qvLoop, newQualityValidator, initResults, risingScores]

/-- C5: the loop's iteration count is *not* transient: it is the instance
field `iteration_count`, which `execute` increments and never resets.  On a
fresh validator (threshold 0.8, budget 5) with every assessment 0.3 the
first invocation performs 5 iterations; the second invocation on the same
instance then starts with the counter already at 5, so its loop guard is
false at once and it performs 0 iterations, returning the untouched fresh
`results` (score 0, standards unmet) instead of running up to the full
budget again. -/
theorem C5_iteration_count_not_transient :
    (let first := QVAgent.execute (newQualityValidator (8/10) 5) (fun _ => 3/10)
      (fun _ => ["improvement"])
     first.1.iterations_performed = 5 ∧ first.2.iteration_count = 5 ∧
       QVAgent.execute first.2 (fun _ => 3/10) (fun _ => ["improvement"]) =
         (initResults, first.2)) := by
  norm_num [QVAgent.execute, qvLoop, newQualityValidator, initResults]

/-! ### A2AProtocol (src/protocols/a2a_protocol.py) -/

/-- A `MessageResponse` (lines 21–29), without the generated `response_id`
and timestamp; the opaque `content` dictionary is a `Nat` payload
(`none` standing for the empty dictionary `{}` of system responses). -/
structure MessageResponse where
  original_message_id : String
  sender : String
  content : Option Nat
  success : Bool
  error_message : Option String
deriving DecidableEq, Repr

/-- What a registered handler does with a message: return a content
dictionary, or raise. -/
inductive HandlerOutcome where
  | ok (content : Nat)
  | raises (err : String)
deriving DecidableEq, Repr

/-- Lookup in the `registered_agents` dict. -/
def lookupAgent (registered : List (String × HandlerOutcome)) (receiver : String) :
    Option HandlerOutcome :=
  (registered.find? (fun p => p.1 == receiver)).map (fun p => p.2)

/-- The timeout response built by `_send_and_await_response` (lines
94–104). -/
def timeoutResponse (mid : String) : MessageResponse :=
  { original_message_id := mid, sender := "system", content := none,
    success := false, error_message := some "Response timeout" }

/-- The timeout path of `_send_and_await_response` (lines 91–106): once the
configured timeout elapses with no response, the caller receives the
timeout response, and the `finally` block pops the message id from
`pending_responses` (a dict, so removal is by key). -/
def sendAndAwaitTimeout (pending : List String) (mid : String) :
    MessageResponse × List String :=
  (timeoutResponse mid, pending.filter (fun x => x ≠ mid))

/-- `_process_message` (lines 124–158) together with `_send_error_response`
(lines 160–174), returning the response delivered to the pending future, if
any: for an unknown receiver, a handler result, or a handler exception, a
response is built and delivered only when the message id is still in
`pending_responses`; otherwise nothing is delivered and the function simply
returns (the handler's result is discarded without any fault). -/
def process_message (registered : List (String × HandlerOutcome))
    (pending : List String) (mid receiver : String) : Option MessageResponse :=
  match lookupAgent registered receiver with
  | none =>
    if pending.contains mid then
      some { original_message_id := mid, sender := "system", content := none,
             success := false, error_message := some ("Unknown agent: " ++ receiver) }
    else none
  | some (.ok c) =>
    if pending.contains mid then
      some { original_message_id := mid, sender := receiver, content := some c,
             success := true, error_message := none }
    else none
  | some (.raises e) =>
    if pending.contains mid then
      some { original_message_id := mid, sender := "system", content := none,
             success := false, error_message := some e }
    else none

/-- C6: when the handler does not complete within the timeout, the caller
receives a response with `success = false` and the timeout error, and the
pending correlation for the message id is removed; if the handler completes
afterwards — normally, with an exception, or with an unknown receiver — no
response is delivered for that id and no unhandled fault occurs
(`process_message` returns `none` in every branch). -/
theorem C6_timeout_releases_and_discards (pending : List String) (mid : String)
    (registered : List (String × HandlerOutcome)) (receiver : String) :
    (sendAndAwaitTimeout pending mid).1.success = false ∧
    (sendAndAwaitTimeout pending mid).1.error_message = some "Response timeout" ∧
    mid ∉ (sendAndAwaitTimeout pending mid).2 ∧
    process_message registered (sendAndAwaitTimeout pending mid).2 mid receiver = none := by
  have hmem : mid ∉ (sendAndAwaitTimeout pending mid).2 := by
    simp [sendAndAwaitTimeout]
  have hcontains : ((sendAndAwaitTimeout pending mid).2.contains mid) = false := by
    simpa using hmem
  refine ⟨rfl, rfl, hmem, ?_⟩
  unfold process_message
  cases lookupAgent registered receiver with
  | none => simp [hmem]
  | some h => cases h <;> simp [hmem]

/-! ### All-success termination of the drive loop

The part of the scheduling claim that the code does satisfy: when every
dispatch succeeds, the drive loop finishes within longest-chain-many waves
and every step ends `completed`.  Acyclicity of the dependency graph is
witnessed by a depth function under which every dependency is strictly
shallower; the length of the longest dependency chain (counted in steps) is
then a bound `D` with every depth below `D`, and `D` waves of fuel
suffice. -/

theorem applyDispatch_step_id (outcome : String → Bool) (res : String → Nat)
    (s : WorkflowStep) : (applyDispatch outcome res s).step_id = s.step_id := by
  unfold applyDispatch
  split <;> rfl

theorem applyDispatch_dependencies (outcome : String → Bool) (res : String → Nat)
    (s : WorkflowStep) : (applyDispatch outcome res s).dependencies = s.dependencies := by
  unfold applyDispatch
  split <;> rfl

/-- A wave rewrites step records in place: the list of step ids is
unchanged. -/
theorem processWave_map_step_id (outcome : Nat → String → Bool) (res : String → Nat)
    (wave : Nat) (st : WorkflowState) :
    (processWave outcome res wave st).steps.map (fun s => s.step_id) =
      st.steps.map (fun s => s.step_id) := by
  simp only [processWave, List.map_map]
  refine List.map_congr_left (fun s _ => ?_)
  by_cases hr : isReady st.executed s
  · simp [hr, applyDispatch_step_id]
  · simp [hr]

/-- The drive-loop invariant for the all-success termination argument:
step ids are distinct, `executed_steps` holds distinct ids of actual steps,
executed steps are `completed`, every dependency names a step of the
workflow, and `depth` witnesses acyclicity. -/
structure ExecInv (depth : String → Nat) (st : WorkflowState) : Prop where
  ids_nodup : (st.steps.map (fun s => s.step_id)).Nodup
  exec_nodup : st.executed.Nodup
  exec_sub : ∀ x ∈ st.executed, x ∈ st.steps.map (fun s => s.step_id)
  exec_completed : ∀ s ∈ st.steps, s.step_id ∈ st.executed → s.status = .completed
  deps_exist : ∀ s ∈ st.steps, ∀ d ∈ s.dependencies, d ∈ st.steps.map (fun t => t.step_id)
  deps_depth : ∀ s ∈ st.steps, ∀ d ∈ s.dependencies, depth d < depth s.step_id

/-- As long as some step is unexecuted, the ready set of the next wave is
nonempty: following unexecuted dependencies strictly decreases the depth,
so an unexecuted step of minimal depth has all dependencies executed. -/
theorem readySteps_ne_nil (depth : String → Nat) (st : WorkflowState)
    (hdeps : ∀ s ∈ st.steps, ∀ d ∈ s.dependencies, d ∈ st.steps.map (fun t => t.step_id))
    (hacyc : ∀ s ∈ st.steps, ∀ d ∈ s.dependencies, depth d < depth s.step_id) :
    ∀ n, ∀ s ∈ st.steps, s.step_id ∉ st.executed → depth s.step_id < n →
      readySteps st ≠ [] := by
  intro n
  induction n with
  | zero => exact fun s _ _ h => absurd h (Nat.not_lt_zero _)
  | succ n ih =>
    intro s hs hunexec hdlt
    by_cases hr : isReady st.executed s
    · intro hnil
      have hmem : s ∈ readySteps st := List.mem_filter.mpr ⟨hs, hr⟩
      rw [hnil] at hmem
      exact absurd hmem (List.not_mem_nil s)
    · have hd : ∃ d ∈ s.dependencies, d ∉ st.executed := by
        by_contra hall
        push_neg at hall
        apply hr
        simp only [isReady, Bool.and_eq_true]
        constructor
        · simpa using hunexec
        · simpa [List.all_eq_true] using hall
      obtain ⟨d, hdmem, hdunexec⟩ := hd
      obtain ⟨t, htmem, htid⟩ := List.mem_map.mp (hdeps s hs d hdmem)
      have hlt : depth t.step_id < n := by
        have := hacyc s hs d hdmem
        rw [htid]
        omega
      exact ih t htmem (htid ▸ hdunexec) hlt

/-- With every dispatch succeeding, one wave preserves the drive-loop
invariant. -/
theorem execInv_processWave (res : String → Nat) (depth : String → Nat) (wave : Nat)
    (st : WorkflowState) (hinv : ExecInv depth st) :
    ExecInv depth (processWave (fun _ _ => true) res wave st) := by
  have hexec : (processWave (fun _ _ => true) res wave st).executed =
      st.executed ++ (readySteps st).map (fun s => s.step_id) := by
    simp [processWave]
  have hids := processWave_map_step_id (fun _ _ => true) res wave st
  constructor
  · rw [hids]
    exact hinv.ids_nodup
  · rw [hexec]
    refine hinv.exec_nodup.append ?_ ?_
    · exact hinv.ids_nodup.sublist ((List.filter_sublist st.steps).map _)
    · intro a ha hb
      obtain ⟨u, hu, rfl⟩ := List.mem_map.mp hb
      have h2 := (List.mem_filter.mp hu).2
      simp [isReady] at h2
      exact h2.1 ha
  · intro x hx
    rw [hexec] at hx
    rw [hids]
    rcases List.mem_append.mp hx with hold | hnew
    · exact hinv.exec_sub x hold
    · obtain ⟨u, hu, rfl⟩ := List.mem_map.mp hnew
      exact List.mem_map_of_mem _ (List.mem_filter.mp hu).1
  · intro s' hs' hmem
    simp only [processWave, List.mem_map] at hs'
    obtain ⟨s, hs, rfl⟩ := hs'
    by_cases hr : isReady st.executed s
    · simp [if_pos hr, applyDispatch]
    · rw [if_neg hr] at hmem ⊢
      rw [hexec] at hmem
      rcases List.mem_append.mp hmem with hold | hnew
      · exact hinv.exec_completed s hs hold
      · obtain ⟨u, hu, huid⟩ := List.mem_map.mp hnew
        have humem := (List.mem_filter.mp hu).1
        have hured := (List.mem_filter.mp hu).2
        have hus : u = s := List.inj_on_of_nodup_map hinv.ids_nodup humem hs huid
        rw [hus] at hured
        exact absurd hured hr
  · intro s' hs' d hd
    rw [hids]
    simp only [processWave, List.mem_map] at hs'
    obtain ⟨s, hs, rfl⟩ := hs'
    have hdep : d ∈ s.dependencies := by
      by_cases hr : isReady st.executed s
      · rwa [if_pos hr, applyDispatch_dependencies] at hd
      · rwa [if_neg hr] at hd
    exact hinv.deps_exist s hs d hdep
  · intro s' hs' d hd
    simp only [processWave, List.mem_map] at hs'
    obtain ⟨s, hs, rfl⟩ := hs'
    by_cases hr : isReady st.executed s
    · rw [if_pos hr, applyDispatch_dependencies] at hd
      rw [if_pos hr, applyDispatch_step_id]
      exact hinv.deps_depth s hs d hd
    · rw [if_neg hr] at hd ⊢
      exact hinv.deps_depth s hs d hd

/-- The all-success induction: if every step of depth below `d0` is already
executed and all depths are below `d0 + fuel`, then `fuel` further waves
finish the loop with every step `completed`. -/
theorem runWaves_all_success (res : String → Nat) (depth : String → Nat) :
    ∀ fuel d0 wave st, ExecInv depth st →
      (∀ s ∈ st.steps, depth s.step_id < d0 → s.step_id ∈ st.executed) →
      (∀ s ∈ st.steps, depth s.step_id < d0 + fuel) →
      ∃ st', runWaves (fun _ _ => true) res fuel wave st = some st' ∧
        ∀ s ∈ st'.steps, s.status = .completed := by
  intro fuel
  induction fuel with
  | zero =>
    intro d0 wave st hinv hcov hbound
    have hall : ∀ s ∈ st.steps, s.step_id ∈ st.executed := fun s hs =>
      hcov s hs (by simpa using hbound s hs)
    have hnotlt : ¬ st.executed.length < st.steps.length := by
      have hsub : (st.steps.map (fun s => s.step_id)) ⊆ st.executed := by
        intro x hx
        obtain ⟨s, hs, rfl⟩ := List.mem_map.mp hx
        exact hall s hs
      have hle := (List.subperm_of_subset hinv.ids_nodup hsub).length_le
      simp only [List.length_map] at hle
      omega
    refine ⟨st, ?_, fun s hs => hinv.exec_completed s hs (hall s hs)⟩
    simp [runWaves, hnotlt]
  | succ f ih =>
    intro d0 wave st hinv hcov hbound
    by_cases hlt : st.executed.length < st.steps.length
    · have hex : ∃ s ∈ st.steps, s.step_id ∉ st.executed := by
        by_contra hallc
        push_neg at hallc
        have hsub : (st.steps.map (fun s => s.step_id)) ⊆ st.executed := by
          intro x hx
          obtain ⟨s, hs, rfl⟩ := List.mem_map.mp hx
          exact hallc s hs
        have hle := (List.subperm_of_subset hinv.ids_nodup hsub).length_le
        simp only [List.length_map] at hle
        omega
      obtain ⟨s0, hs0, hs0un⟩ := hex
      have hready : readySteps st ≠ [] :=
        readySteps_ne_nil depth st hinv.deps_exist hinv.deps_depth
          (depth s0.step_id + 1) s0 hs0 hs0un (Nat.lt_succ_self _)
      have hexec : (processWave (fun _ _ => true) res wave st).executed =
          st.executed ++ (readySteps st).map (fun s => s.step_id) := by
        simp [processWave]
      have hids := processWave_map_step_id (fun _ _ => true) res wave st
      have hcov1 : ∀ s ∈ (processWave (fun _ _ => true) res wave st).steps,
          depth s.step_id < d0 + 1 →
          s.step_id ∈ (processWave (fun _ _ => true) res wave st).executed := by
        intro s' hs' hdlt
        simp only [processWave, List.mem_map] at hs'
        obtain ⟨s, hs, rfl⟩ := hs'
        have hid : (if isReady st.executed s
            then applyDispatch (fun _ => true) res s else s).step_id = s.step_id := by
          by_cases hr : isReady st.executed s
          · rw [if_pos hr, applyDispatch_step_id]
          · rw [if_neg hr]
        rw [hid] at hdlt ⊢
        rw [hexec]
        by_cases hmem : s.step_id ∈ st.executed
        · exact List.mem_append_left _ hmem
        · have hr : isReady st.executed s = true := by
            simp only [isReady, Bool.and_eq_true]
            constructor
            · simpa using hmem
            · rw [List.all_eq_true]
              intro d hd
              have hdd : depth d < d0 := by
                have := hinv.deps_depth s hs d hd
                omega
              obtain ⟨t, ht, htid⟩ := List.mem_map.mp (hinv.deps_exist s hs d hd)
              have htexec : t.step_id ∈ st.executed :=
                hcov t ht (by rw [htid]; exact hdd)
              rw [htid] at htexec
              simpa using htexec
          refine List.mem_append_right _ ?_
          exact List.mem_map_of_mem _ (List.mem_filter.mpr ⟨hs, hr⟩)
      have hbound1 : ∀ s ∈ (processWave (fun _ _ => true) res wave st).steps,
          depth s.step_id < (d0 + 1) + f := by
        intro s' hs'
        have : s'.step_id ∈ (processWave (fun _ _ => true) res wave st).steps.map
            (fun s => s.step_id) := List.mem_map_of_mem _ hs'
        rw [hids] at this
        obtain ⟨s, hs, hsid⟩ := List.mem_map.mp this
        rw [← hsid]
        have := hbound s hs
        omega
      obtain ⟨st', hrun, hcomp⟩ := ih (d0 + 1) (wave + 1)
        (processWave (fun _ _ => true) res wave st)
        (execInv_processWave res depth wave st hinv) hcov1 hbound1
      refine ⟨st', ?_, hcomp⟩
      simp only [runWaves, if_pos hlt, if_neg hready]
      exact hrun
    · have hge : st.steps.length ≤ st.executed.length := Nat.le_of_not_lt hlt
      have hperm : List.Perm st.executed (st.steps.map (fun s => s.step_id)) :=
        (List.subperm_of_subset hinv.exec_nodup hinv.exec_sub).perm_of_length_le
          (by simpa using hge)
      have hall : ∀ s ∈ st.steps, s.step_id ∈ st.executed := by
        intro s hs
        exact hperm.symm.subset (List.mem_map_of_mem _ hs)
      refine ⟨st, ?_, fun s hs => hinv.exec_completed s hs (hall s hs)⟩
      simp [runWaves, hlt]

/-- The true half of the scheduling claim: on a valid acyclic dependency
graph (distinct step ids, dependencies within the graph, a depth witness
with every dependency strictly shallower) with every dispatch succeeding,
`execute_workflow` terminates within `D` scheduling waves — any `D` strictly
above all depths, e.g. the length of the longest dependency chain — with
every step `completed` and the workflow marked `completed`. -/
theorem executeWorkflowRun_all_success (res : String → Nat) (depth : String → Nat)
    (D : Nat) (steps : List WorkflowStep)
    (hnodup : (steps.map (fun s => s.step_id)).Nodup)
    (hdeps : ∀ s ∈ steps, ∀ d ∈ s.dependencies, d ∈ steps.map (fun t => t.step_id))
    (hacyc : ∀ s ∈ steps, ∀ d ∈ s.dependencies, depth d < depth s.step_id)
    (hbound : ∀ s ∈ steps, depth s.step_id < D) :
    ∃ st', executeWorkflowRun (fun _ _ => true) res D steps = some st' ∧
      (∀ s ∈ st'.steps, s.status = .completed) ∧ st'.wstatus = .completed := by
  have hinv : ExecInv depth (initialState steps) :=
    { ids_nodup := hnodup
      exec_nodup := List.nodup_nil
      exec_sub := by intro x hx; exact absurd hx (List.not_mem_nil x)
      exec_completed := by intro s _ hmem; exact absurd hmem (List.not_mem_nil _)
      deps_exist := hdeps
      deps_depth := hacyc }
  obtain ⟨st1, hrun, hcomp⟩ := runWaves_all_success res depth D 0 0
    (initialState steps) hinv
    (by intro s _ h; omega)
    (by intro s hs; simpa using hbound s hs)
  have hfail : failedStepIds st1 = [] := by
    unfold failedStepIds
    rw [List.map_eq_nil_iff, List.filter_eq_nil_iff]
    intro s hs
    rw [hcomp s hs]
    decide
  refine ⟨finalizeWorkflow st1, ?_, ?_, ?_⟩
  · unfold executeWorkflowRun
    rw [hrun, Option.map_some']
  · intro s hs
    have hsteps : (finalizeWorkflow st1).steps = st1.steps := by
      unfold finalizeWorkflow
      split <;> rfl
    rw [hsteps] at hs
    exact hcomp s hs
  · unfold finalizeWorkflow
    rw [if_pos hfail]

end YTAgent
